import Mathlib

/-!
# Verification of the heightmap generator core

Shallow embedding of `heightmap_generator.py` over exact rationals:
`parse_polyline_from_json`, `create_heightmap` (numpy `linspace`/`argsort`/
`meshgrid` plus scipy `interp1d(kind="linear", bounds_error=False,
fill_value=(y_first, y_last))`), and `calculate_optimal_dimensions`.
-/

namespace Heightmap

/-- A terrain profile: the `Nx2` array of (x, y) points. -/
abbrev Profile := List (ℚ × ℚ)

/-- `numpy.linspace a b n`: `n` evenly spaced samples from `a` to `b`
inclusive; one sample gives `[a]`, zero samples give the empty array. -/
def linspace (a b : ℚ) (n : ℕ) : List ℚ :=
  if n = 0 then []
  else if n = 1 then [a]
  else (List.range n).map (fun i : ℕ => a + (b - a) * (i : ℚ) / ((n : ℚ) - 1))

/-- `polyline[np.argsort(polyline[:, 0])]`: stable sort of the points by
x-coordinate (numpy's sort on the small arrays at issue is an insertion
sort, which is stable). -/
def sortByX (p : Profile) : Profile :=
  List.insertionSort (fun a b => a.1 ≤ b.1) p

/-- Interval walk of `numpy.interp` (to which scipy's `interp1d` with
`kind="linear"` delegates): the invariant is `p.1 ≤ x`; advance while the
next knot's x is still `≤ x`, so the segment start is the LAST knot with
x-coordinate `≤ x`; at an exact knot hit return that knot's y, otherwise
blend linearly with the following knot, and clamp past the last knot. -/
def interpGo (p : ℚ × ℚ) : List (ℚ × ℚ) → ℚ → ℚ
  | [], _ => p.2
  | q :: rest, x =>
    if q.1 ≤ x then interpGo q rest x
    else if x = p.1 then p.2
    else p.2 + (q.2 - p.2) * (x - p.1) / (q.1 - p.1)

/-- One evaluation of the interpolant `f` built by
`interp1d(xs, ys, kind="linear", bounds_error=False,
fill_value=(ys[0], ys[-1]))` over the sorted point list `ps`: queries left
of the first knot are filled with the first y, all others are handled by
the `numpy.interp` interval walk. -/
def interpAt (ps : List (ℚ × ℚ)) (x : ℚ) : ℚ :=
  match ps with
  | [] => 0
  | p :: rest => if x < p.1 then p.2 else interpGo p rest x

/-- The exceptions `create_heightmap` can propagate. -/
inductive HmapError
  /-- `ValueError` from `np.min(polyline, axis=0)` on an empty point array. -/
  | emptyInput
  /-- `ValueError` from `interp1d`: fewer than 2 data points. -/
  | tooFewPoints
  /-- `ValueError` from `np.min` over the empty (zero-width or zero-height)
  already-built field: "zero-size array to reduction operation". -/
  | emptyField
deriving DecidableEq

/-- The interpolated, pre-normalization height field: `np.meshgrid` broadcasts
the x-samples into one identical row per y-grid entry, and `f(grid_x)`
applies the interpolant elementwise. -/
def rawField (p : Profile) (xmn xmx ymn ymx : ℚ) (w h : ℕ) : List (List ℚ) :=
  ((linspace ymn ymx h).map (fun _ => linspace xmn xmx w)).map
    (List.map (interpAt (sortByX p)))

/-- Final step of `create_heightmap`: `h_min = np.min(heightmap)`,
`h_max = np.max(heightmap)` (a `ValueError` on an empty field), then rescale
via `(v - h_min) / (h_max - h_min)` only when `h_max > h_min`. -/
def normalizeStep (raw : List (List ℚ)) : Except HmapError (List (List ℚ)) :=
  match raw.flatten.min?, raw.flatten.max? with
  | some hmn, some hmx =>
      .ok (if hmn < hmx
           then raw.map (List.map (fun v => (v - hmn) / (hmx - hmn)))
           else raw)
  | _, _ => .error .emptyField

/-- `create_heightmap(polyline, width, height)`: bounds of the polyline
(`np.min`/`np.max` along axis 0, an error on an empty array), sort by x,
build the interpolant (`interp1d` refuses fewer than 2 points), evaluate it
on the meshgrid, and normalize. -/
def create_heightmap (p : Profile) (width height : ℕ) :
    Except HmapError (List (List ℚ)) :=
  match (p.map Prod.fst).min?, (p.map Prod.fst).max?,
        (p.map Prod.snd).min?, (p.map Prod.snd).max? with
  | some xmn, some xmx, some ymn, some ymx =>
      if (sortByX p).length < 2 then .error .tooFewPoints
      else normalizeStep (rawField p xmn xmx ymn ymx width height)
  | _, _, _, _ => .error .emptyInput

/-- Python `int()` applied to a real number truncates toward zero. -/
def pyInt (q : ℚ) : ℤ := if 0 ≤ q then ⌊q⌋ else ⌈q⌉

/-- `calculate_optimal_dimensions(polyline, pixels_per_meter, height)`:
width is `int((max(x) - min(x)) * pixels_per_meter)`, height passes
through; the bounds reductions fail on an empty polyline. -/
def calculate_optimal_dimensions (p : Profile) (pixels_per_meter : ℚ)
    (height : ℤ) : Option (ℤ × ℤ) :=
  match (p.map Prod.fst).min?, (p.map Prod.fst).max? with
  | some xmn, some xmx => some (pyInt ((xmx - xmn) * pixels_per_meter), height)
  | _, _ => none

/-- A parsed JSON point object: the "x" and "y" keys may be absent
(`point.get("x", 0.0)` then defaults them to 0). -/
structure PointRec where
  x : Option ℚ
  y : Option ℚ
deriving DecidableEq

/-- A parsed JSON polyline object with its "points" array. -/
structure PolylineRec where
  points : List PointRec
deriving DecidableEq

/-- The parsed JSON level record; the "polyLines" key may be absent. -/
structure LevelData where
  polyLines : Option (List PolylineRec)
deriving DecidableEq

/-- The exceptions `parse_polyline_from_json` can raise. -/
inductive ParseError
  /-- Python `KeyError`: `json_data["polyLines"]` with the key absent. -/
  | keyError
  /-- Python `IndexError`: `[...][0]` on an empty list. -/
  | indexError
deriving DecidableEq

/-- `parse_polyline_from_json(json_data)`: take the first polyline's points
and map each to `(point.get("x", 0.0), point.get("y", 0.0))`. -/
def parse_polyline_from_json (d : LevelData) : Except ParseError Profile :=
  match d.polyLines with
  | none => .error .keyError
  | some [] => .error .indexError
  | some (pl :: _) => .ok (pl.points.map (fun pt => (pt.x.getD 0, pt.y.getD 0)))

/-- The normalization-range property of a field: every value lies in `[0,1]`
and the bounds 0 and 1 are both attained somewhere. -/
def valuesIn01AndAttains (F : List (List ℚ)) : Prop :=
  (∀ r ∈ F, ∀ v ∈ r, 0 ≤ v ∧ v ≤ 1) ∧
    (∃ r ∈ F, (0 : ℚ) ∈ r) ∧ (∃ r ∈ F, (1 : ℚ) ∈ r)

instance (F : List (List ℚ)) : Decidable (valuesIn01AndAttains F) := by
  unfold valuesIn01AndAttains; infer_instance

/-! ## Helper lemmas -/

instance {ε α : Type} [DecidableEq ε] [DecidableEq α] :
    DecidableEq (Except ε α) := fun x y =>
  match x, y with
  | .ok a, .ok b =>
    if h : a = b then .isTrue (by rw [h]) else .isFalse (by simp [h])
  | .error e, .error f =>
    if h : e = f then .isTrue (by rw [h]) else .isFalse (by simp [h])
  | .ok _, .error _ => .isFalse (by simp)
  | .error _, .ok _ => .isFalse (by simp)

instance : IsTotal (ℚ × ℚ) (fun a b => a.1 ≤ b.1) :=
  ⟨fun a b => le_total a.1 b.1⟩

instance : IsTrans (ℚ × ℚ) (fun a b => a.1 ≤ b.1) :=
  ⟨fun _ _ _ h h' => le_trans h h'⟩

instance : IsAntisymm (ℚ × ℚ) (fun a b => a.1 < b.1) :=
  ⟨fun _ _ h h' => ((lt_irrefl _ (lt_trans h h')).elim)⟩

theorem ratMin?_iff {l : List ℚ} {a : ℚ} :
    l.min? = some a ↔ a ∈ l ∧ ∀ b ∈ l, a ≤ b := by
  haveI : Std.Antisymm ((· : ℚ) ≤ ·) := ⟨fun h h' => le_antisymm h h'⟩
  exact List.min?_eq_some_iff (fun _ => le_refl _) (fun a b => min_choice a b)
    (fun _ _ _ => le_min_iff)

theorem ratMax?_iff {l : List ℚ} {a : ℚ} :
    l.max? = some a ↔ a ∈ l ∧ ∀ b ∈ l, b ≤ a := by
  haveI : Std.Antisymm ((· : ℚ) ≤ ·) := ⟨fun h h' => le_antisymm h h'⟩
  exact List.max?_eq_some_iff (fun _ => le_refl _) (fun a b => max_choice a b)
    (fun _ _ _ => max_le_iff)

theorem min?_perm {l₁ l₂ : List ℚ} (hp : l₁.Perm l₂) : l₁.min? = l₂.min? := by
  rcases e : l₂.min? with _ | a
  · rw [List.min?_eq_none_iff] at e ⊢
    subst e
    exact hp.eq_nil
  · rw [ratMin?_iff] at e ⊢
    exact ⟨hp.mem_iff.2 e.1, fun b hb => e.2 b (hp.mem_iff.1 hb)⟩

theorem max?_perm {l₁ l₂ : List ℚ} (hp : l₁.Perm l₂) : l₁.max? = l₂.max? := by
  rcases e : l₂.max? with _ | a
  · rw [List.max?_eq_none_iff] at e ⊢
    subst e
    exact hp.eq_nil
  · rw [ratMax?_iff] at e ⊢
    exact ⟨hp.mem_iff.2 e.1, fun b hb => e.2 b (hp.mem_iff.1 hb)⟩

theorem linspace_length (a b : ℚ) (n : ℕ) : (linspace a b n).length = n := by
  unfold linspace
  split
  · simp [*]
  · split
    · simp [*]
    · rw [List.length_map, List.length_range]

theorem linspace_ne_nil (a b : ℚ) {n : ℕ} (hn : 1 ≤ n) : linspace a b n ≠ [] := by
  intro h
  have hl := linspace_length a b n
  rw [h] at hl
  simp at hl
  omega

theorem sortByX_perm (p : Profile) : (sortByX p).Perm p :=
  List.perm_insertionSort _ p

theorem sortByX_sorted (p : Profile) :
    List.Sorted (fun a b : ℚ × ℚ => a.1 ≤ b.1) (sortByX p) :=
  List.sorted_insertionSort _ p

theorem rawField_row {p : Profile} {xmn xmx ymn ymx : ℚ} {w h : ℕ}
    {r : List ℚ} (hr : r ∈ rawField p xmn xmx ymn ymx w h) :
    r = (linspace xmn xmx w).map (interpAt (sortByX p)) := by
  unfold rawField at hr
  rcases List.mem_map.1 hr with ⟨r₀, hr₀, rfl⟩
  rcases List.mem_map.1 hr₀ with ⟨_, _, rfl⟩
  rfl

theorem rawField_ne_nil {p : Profile} {xmn xmx ymn ymx : ℚ} {w h : ℕ}
    (hh : 1 ≤ h) : rawField p xmn xmx ymn ymx w h ≠ [] := by
  unfold rawField
  simp only [ne_eq, List.map_eq_nil_iff]
  exact linspace_ne_nil _ _ hh

theorem create_heightmap_ok {p : Profile} {w h : ℕ} {F : List (List ℚ)}
    (hok : create_heightmap p w h = .ok F) :
    ∃ xmn xmx ymn ymx hmn hmx,
      (p.map Prod.fst).min? = some xmn ∧ (p.map Prod.fst).max? = some xmx ∧
      (p.map Prod.snd).min? = some ymn ∧ (p.map Prod.snd).max? = some ymx ∧
      2 ≤ p.length ∧
      (rawField p xmn xmx ymn ymx w h).flatten.min? = some hmn ∧
      (rawField p xmn xmx ymn ymx w h).flatten.max? = some hmx ∧
      F = (if hmn < hmx
           then (rawField p xmn xmx ymn ymx w h).map
             (List.map (fun v => (v - hmn) / (hmx - hmn)))
           else rawField p xmn xmx ymn ymx w h) := by
  unfold create_heightmap at hok
  rcases e1 : (p.map Prod.fst).min? with _ | xmn <;> rw [e1] at hok <;>
    try simp at hok
  rcases e2 : (p.map Prod.fst).max? with _ | xmx <;> rw [e2] at hok <;>
    try simp at hok
  rcases e3 : (p.map Prod.snd).min? with _ | ymn <;> rw [e3] at hok <;>
    try simp at hok
  rcases e4 : (p.map Prod.snd).max? with _ | ymx <;> rw [e4] at hok <;>
    try simp at hok
  by_cases hlen : (sortByX p).length < 2
  · rw [if_pos hlen] at hok
    simp at hok
  · rw [if_neg hlen] at hok
    unfold normalizeStep at hok
    rcases emn : (rawField p xmn xmx ymn ymx w h).flatten.min? with _ | hmn <;>
      rw [emn] at hok <;> try simp at hok
    rcases emx : (rawField p xmn xmx ymn ymx w h).flatten.max? with _ | hmx <;>
      rw [emx] at hok <;> try simp at hok
    refine ⟨xmn, xmx, ymn, ymx, hmn, hmx, rfl, rfl, rfl, rfl, ?_, emn, emx, hok.symm⟩
    have := (sortByX_perm p).length_eq
    omega

theorem min?_isSome_of_ne_nil {l : List ℚ} (h : l ≠ []) :
    ∃ a, l.min? = some a := by
  cases e : l.min? with
  | none => rw [List.min?_eq_none_iff] at e; exact absurd e h
  | some a => exact ⟨a, rfl⟩

theorem max?_isSome_of_ne_nil {l : List ℚ} (h : l ≠ []) :
    ∃ a, l.max? = some a := by
  cases e : l.max? with
  | none => rw [List.max?_eq_none_iff] at e; exact absurd e h
  | some a => exact ⟨a, rfl⟩

theorem two_le_length_of_mem_ne {p : Profile} {a b : ℚ × ℚ}
    (ha : a ∈ p) (hb : b ∈ p) (hab : a ≠ b) : 2 ≤ p.length := by
  match p with
  | [] => simp at ha
  | [x] =>
    simp at ha hb
    subst ha; subst hb
    exact absurd rfl hab
  | x :: y :: rest => simp

theorem interpGo_const {c : ℚ} : ∀ (rest : List (ℚ × ℚ)) (p : ℚ × ℚ) (x : ℚ),
    p.2 = c → (∀ q ∈ rest, q.2 = c) → interpGo p rest x = c
  | [], p, x, hp, _ => hp
  | q :: rest, p, x, hp, hq => by
    show (if q.1 ≤ x then interpGo q rest x
          else if x = p.1 then p.2
          else p.2 + (q.2 - p.2) * (x - p.1) / (q.1 - p.1)) = c
    split
    · exact interpGo_const rest q x (hq q (by simp))
        (fun r hr => hq r (by simp [hr]))
    · split
      · exact hp
      · rw [hp, hq q (by simp)]
        simp

theorem interpAt_const {ps : List (ℚ × ℚ)} {c x : ℚ} (hne : ps ≠ [])
    (hc : ∀ q ∈ ps, q.2 = c) : interpAt ps x = c := by
  rcases ps with _ | ⟨p, rest⟩
  · exact absurd rfl hne
  · show (if x < p.1 then p.2 else interpGo p rest x) = c
    split
    · exact hc p (by simp)
    · exact interpGo_const rest p x (hc p (by simp))
        (fun q hq => hc q (by simp [hq]))

theorem sortByX_strict {p : Profile} (hnd : (p.map Prod.fst).Nodup) :
    (sortByX p).Pairwise (fun a b => a.1 < b.1) := by
  have hs : (sortByX p).Pairwise (fun a b : ℚ × ℚ => a.1 ≤ b.1) :=
    sortByX_sorted p
  have hnd' : ((sortByX p).map Prod.fst).Nodup :=
    ((sortByX_perm p).map Prod.fst).symm.nodup hnd
  have hne : (sortByX p).Pairwise (fun a b => a.1 ≠ b.1) :=
    List.pairwise_map.1 hnd'
  exact (hs.and hne).imp (fun hab => lt_of_le_of_ne hab.1 hab.2)

theorem sortByX_eq_of_perm {p q : Profile} (hperm : p.Perm q)
    (hnd : (p.map Prod.fst).Nodup) : sortByX p = sortByX q := by
  have hpq : (sortByX p).Perm (sortByX q) :=
    ((sortByX_perm p).trans hperm).trans (sortByX_perm q).symm
  have hndq : (q.map Prod.fst).Nodup := (hperm.map Prod.fst).nodup hnd
  exact List.eq_of_perm_of_sorted hpq (sortByX_strict hnd) (sortByX_strict hndq)

/-! ## Claims -/

/-- C2 (the code does not implement the claimed behaviour): invoked with
width = 0 (zero-extent profile `[(5,0),(5,3)]`, height 4),
`create_heightmap` does not raise a deliberate, distinct DegenerateGeometry
error before any zero-width field is built: the 4×0 field IS built (second
conjunct), and the failure is the generic `ValueError` of `np.min` over a
zero-size reduction on that already-built field. -/
theorem c2_zero_width_generic_error :
    create_heightmap [(5, 0), (5, 3)] 0 4 = .error .emptyField ∧
      rawField [(5, 0), (5, 3)] 5 5 0 3 0 4 = [[], [], [], []] :=
  ⟨by with_unfolding_all rfl, by with_unfolding_all rfl⟩

set_option maxRecDepth 8000 in
/-- C5: end-to-end on profile `[(0,0),(10,5),(20,0)]` at ppm = 1,
height = 4: the planner derives width 20 and passes height through; the
field consists of 4 identical rows whose two central columns (indices 9
and 10 of the 20) hold the maximum normalized value 1 and whose first and
last columns hold exactly 0. -/
theorem c5_end_to_end :
    calculate_optimal_dimensions [(0, 0), (10, 5), (20, 0)] 1 4 =
        some (20, 4) ∧
      create_heightmap [(0, 0), (10, 5), (20, 0)] 20 4 =
        .ok (List.replicate 4
          [0, 1/9, 2/9, 1/3, 4/9, 5/9, 2/3, 7/9, 8/9, 1,
           1, 8/9, 7/9, 2/3, 5/9, 4/9, 1/3, 2/9, 1/9, 0]) ∧
      ([0, 1/9, 2/9, 1/3, 4/9, 5/9, 2/3, 7/9, 8/9, 1,
        1, 8/9, 7/9, 2/3, 5/9, 4/9, 1/3, 2/9, 1/9, 0] : List ℚ)[9]? =
        some 1 ∧
      ([0, 1/9, 2/9, 1/3, 4/9, 5/9, 2/3, 7/9, 8/9, 1,
        1, 8/9, 7/9, 2/3, 5/9, 4/9, 1/3, 2/9, 1/9, 0] : List ℚ)[10]? =
        some 1 ∧
      ([0, 1/9, 2/9, 1/3, 4/9, 5/9, 2/3, 7/9, 8/9, 1,
        1, 8/9, 7/9, 2/3, 5/9, 4/9, 1/3, 2/9, 1/9, 0] : List ℚ)[0]? =
        some 0 ∧
      ([0, 1/9, 2/9, 1/3, 4/9, 5/9, 2/3, 7/9, 8/9, 1,
        1, 8/9, 7/9, 2/3, 5/9, 4/9, 1/3, 2/9, 1/9, 0] : List ℚ)[19]? =
        some 0 := by
  exact ⟨by with_unfolding_all rfl, by with_unfolding_all rfl, rfl, rfl,
    rfl, rfl⟩

/-- C1 counterexample: the profile `[(0,3),(1,5),(2,3)]` has two distinct
y values (3 ≠ 5), yet at width 2 and height 1 the two x-samples both hit
elevation 3, the field is the constant `[[3,3]]`, normalization is skipped,
and the output values neither lie in [0,1] nor attain 0 or 1. -/
theorem c1_counterexample :
    ((3 : ℚ) ≠ 5) ∧
      create_heightmap [(0, 3), (1, 5), (2, 3)] 2 1 = .ok [[3, 3]] ∧
      ¬ valuesIn01AndAttains [[3, 3]] := by
  exact ⟨by norm_num, by with_unfolding_all rfl, by with_unfolding_all decide⟩

/-- C3 counterexample: a record whose first polyline has an EMPTY points
list is parsed without any error into the empty profile — the claimed
MalformedInput failure for an empty points list (and for a profile with
fewer than 2 points) does not happen. -/
theorem c3_counterexample :
    parse_polyline_from_json ⟨some [⟨[]⟩]⟩ = .ok [] := rfl

/-- C3 (amended): `parse_polyline_from_json` fails exactly when the record
is missing the "polyLines" key (KeyError) or the polyline list is empty
(IndexError); an empty points list, a one-point profile, or duplicate
x-values are all accepted without validation. -/
theorem c3_parse_failure_iff (d : LevelData) :
    (parse_polyline_from_json d).isOk = false ↔
      d.polyLines = none ∨ d.polyLines = some [] := by
  obtain ⟨pls⟩ := d
  cases pls with
  | none => simp [parse_polyline_from_json, Except.isOk, Except.toBool]
  | some l =>
    cases l with
    | nil => simp [parse_polyline_from_json, Except.isOk, Except.toBool]
    | cons pl rest =>
      simp [parse_polyline_from_json, Except.isOk, Except.toBool]

/-- C3 witness: a record missing the "polyLines" key fails to parse. -/
theorem c3_witness : (parse_polyline_from_json ⟨none⟩).isOk = false :=
  (c3_parse_failure_iff ⟨none⟩).mpr (Or.inl rfl)

/-- C6: for every profile (with bounds `xmn`/`xmx` of its x-coordinates)
and every non-negative pixels-per-meter, `calculate_optimal_dimensions`
returns width `⌊(max x − min x) · ppm⌋` and the height argument
unchanged. -/
theorem c6_width_floor (p : Profile) (q : ℚ) (t : ℤ) (xmn xmx : ℚ)
    (e1 : (p.map Prod.fst).min? = some xmn)
    (e2 : (p.map Prod.fst).max? = some xmx)
    (hq : 0 ≤ q) :
    calculate_optimal_dimensions p q t = some (⌊(xmx - xmn) * q⌋, t) := by
  have hle : xmn ≤ xmx := (ratMin?_iff.1 e1).2 _ (ratMax?_iff.1 e2).1
  unfold calculate_optimal_dimensions
  rw [e1, e2]
  show some (pyInt ((xmx - xmn) * q), t) = some (⌊(xmx - xmn) * q⌋, t)
  unfold pyInt
  rw [if_pos (mul_nonneg (sub_nonneg.2 hle) hq)]

/-- C6 witness: a profile spanning x ∈ [0,100] at ppm = 2, height 512
yields (200, 512). -/
theorem c6_witness :
    calculate_optimal_dimensions [(0, 0), (100, 0)] 2 512 =
      some (200, 512) := by
  have h := c6_width_floor [(0, 0), (100, 0)] 2 512 0 100
    (by with_unfolding_all rfl) (by with_unfolding_all rfl) (by norm_num)
  rw [h]
  with_unfolding_all rfl

/-- C10: for every profile with strictly positive horizontal extent and
non-negative pixels-per-meter whose product extent · ppm is below 1,
`calculate_optimal_dimensions` truncates the product to width 0. -/
theorem c10_small_extent_zero_width (p : Profile) (q : ℚ) (t : ℤ)
    (xmn xmx : ℚ)
    (e1 : (p.map Prod.fst).min? = some xmn)
    (e2 : (p.map Prod.fst).max? = some xmx)
    (hq : 0 ≤ q) (hpos : 0 < xmx - xmn) (hsmall : (xmx - xmn) * q < 1) :
    calculate_optimal_dimensions p q t = some (0, t) := by
  have h0 : 0 ≤ (xmx - xmn) * q := mul_nonneg hpos.le hq
  unfold calculate_optimal_dimensions
  rw [e1, e2]
  show some (pyInt ((xmx - xmn) * q), t) = some (0, t)
  unfold pyInt
  rw [if_pos h0, Int.floor_eq_zero_iff.2 ⟨h0, hsmall⟩]

/-- C10 witness: extent 1/2 at ppm = 1 (product 1/2 < 1) yields width 0. -/
theorem c10_witness :
    calculate_optimal_dimensions [(0, 1), (1/2, 3)] 1 7 = some (0, 7) :=
  c10_small_extent_zero_width [(0, 1), (1/2, 3)] 1 7 0 (1/2)
    (by with_unfolding_all rfl) (by with_unfolding_all rfl)
    (by norm_num) (by norm_num) (by norm_num)

/-- C4 counterexample: the profile `[(0,0),(0,5),(1,1)]` and its
permutation `[(0,5),(0,0),(1,1)]` (two points share x = 0) produce
different fields at width 2, height 1: the stable sort keeps the tie order
of the duplicated x, and the `numpy.interp` interval walk takes the later
duplicate's y at the shared knot, so the sampled value at x = 0 is 5 in
one order and 0 in the other. -/
theorem c4_counterexample :
    ([(0, 0), (0, 5), (1, 1)] : Profile).Perm [(0, 5), (0, 0), (1, 1)] ∧
      create_heightmap [(0, 0), (0, 5), (1, 1)] 2 1 = .ok [[1, 0]] ∧
      create_heightmap [(0, 5), (0, 0), (1, 1)] 2 1 = .ok [[0, 1]] ∧
      create_heightmap [(0, 0), (0, 5), (1, 1)] 2 1 ≠
        create_heightmap [(0, 5), (0, 0), (1, 1)] 2 1 := by
  refine ⟨List.Perm.swap _ _ _, by with_unfolding_all rfl,
    by with_unfolding_all rfl, by with_unfolding_all decide⟩

/-- C4 (amended): for every profile whose x-coordinates are pairwise
distinct, every permutation of the point order produces an identical
Height Field (for any width and height). -/
theorem c4_sort_invariance (p q : Profile) (w h : ℕ) (hperm : p.Perm q)
    (hnd : (p.map Prod.fst).Nodup) :
    create_heightmap p w h = create_heightmap q w h := by
  have h1 := min?_perm (hperm.map Prod.fst)
  have h2 := max?_perm (hperm.map Prod.fst)
  have h3 := min?_perm (hperm.map Prod.snd)
  have h4 := max?_perm (hperm.map Prod.snd)
  have hs := sortByX_eq_of_perm hperm hnd
  unfold create_heightmap rawField
  rw [h1, h2, h3, h4, hs]

/-- C4 witness: swapping the two points of `[(0,0),(10,5)]` leaves the
field unchanged. -/
theorem c4_witness :
    create_heightmap [(0, 0), (10, 5)] 2 1 =
      create_heightmap [(10, 5), (0, 0)] 2 1 :=
  c4_sort_invariance [(0, 0), (10, 5)] [(10, 5), (0, 0)] 2 1
    (List.Perm.swap _ _ _) (by with_unfolding_all decide)

/-- C7: all rows of a Height Field returned by `create_heightmap` are
identical (for any profile and any width ≥ 1, height ≥ 1): the meshgrid
broadcasts one interpolated 1D profile across the height dimension, and
normalization is applied elementwise. -/
theorem c7_rows_identical (p : Profile) (w h : ℕ) (F : List (List ℚ))
    (hw : 1 ≤ w) (hh : 1 ≤ h) (hok : create_heightmap p w h = .ok F) :
    ∀ r₁ ∈ F, ∀ r₂ ∈ F, r₁ = r₂ := by
  obtain ⟨xmn, xmx, ymn, ymx, hmn, hmx, e1, e2, e3, e4, hlen, emn, emx, hF⟩ :=
    create_heightmap_ok hok
  intro r₁ hr₁ r₂ hr₂
  by_cases hlt : hmn < hmx
  · rw [if_pos hlt] at hF
    subst hF
    rcases List.mem_map.1 hr₁ with ⟨s₁, hs₁, rfl⟩
    rcases List.mem_map.1 hr₂ with ⟨s₂, hs₂, rfl⟩
    rw [rawField_row hs₁, rawField_row hs₂]
  · rw [if_neg hlt] at hF
    subst hF
    rw [rawField_row hr₁, rawField_row hr₂]

/-- C7 witness: at width 3, height 2 on `[(0,0),(10,5),(20,0)]` the two
rows of the field coincide. -/
theorem c7_witness :
    create_heightmap [(0, 0), (10, 5), (20, 0)] 3 2 =
        .ok [[0, 1, 0], [0, 1, 0]] ∧
      ([0, 1, 0] : List ℚ) = [0, 1, 0] :=
  ⟨by with_unfolding_all rfl,
    c7_rows_identical [(0, 0), (10, 5), (20, 0)] 3 2 [[0, 1, 0], [0, 1, 0]]
      (by norm_num) (by norm_num) (by with_unfolding_all rfl)
      [0, 1, 0] (by simp) [0, 1, 0] (by simp)⟩

/-- C9: on a profile whose y values all equal a single constant `c` (and
with at least two distinct x values), `create_heightmap` returns the raw
interpolated field unchanged — the normalization branch is skipped, no
division is performed — and every value of that field equals `c`. -/
theorem c9_flat_profile (p : Profile) (c : ℚ) (w h : ℕ)
    (xmn xmx ymn ymx : ℚ)
    (e1 : (p.map Prod.fst).min? = some xmn)
    (e2 : (p.map Prod.fst).max? = some xmx)
    (e3 : (p.map Prod.snd).min? = some ymn)
    (e4 : (p.map Prod.snd).max? = some ymx)
    (hy : ∀ pt ∈ p, pt.2 = c)
    (hx : ∃ a ∈ p, ∃ b ∈ p, a.1 ≠ b.1)
    (hw : 1 ≤ w) (hh : 1 ≤ h) :
    create_heightmap p w h = .ok (rawField p xmn xmx ymn ymx w h) ∧
      ∀ r ∈ rawField p xmn xmx ymn ymx w h, ∀ v ∈ r, v = c := by
  obtain ⟨a, ha, b, hb, hab⟩ := hx
  have hlen2 : 2 ≤ p.length :=
    two_le_length_of_mem_ne ha hb (fun he => hab (he ▸ rfl))
  have hsne : sortByX p ≠ [] := by
    intro hnil
    have hl := (sortByX_perm p).length_eq
    rw [hnil] at hl
    simp at hl
    omega
  have hraw : ∀ r ∈ rawField p xmn xmx ymn ymx w h, ∀ v ∈ r, v = c := by
    intro r hr v hv
    rw [rawField_row hr] at hv
    rcases List.mem_map.1 hv with ⟨x, _, rfl⟩
    exact interpAt_const hsne
      (fun qq hqq => hy qq ((sortByX_perm p).mem_iff.1 hqq))
  have hflat : ∀ v ∈ (rawField p xmn xmx ymn ymx w h).flatten, v = c := by
    intro v hv
    rcases List.mem_flatten.1 hv with ⟨r, hr, hvr⟩
    exact hraw r hr v hvr
  have hcmem : c ∈ (rawField p xmn xmx ymn ymx w h).flatten := by
    obtain ⟨r, hr⟩ :=
      List.exists_mem_of_ne_nil _ (@rawField_ne_nil p xmn xmx ymn ymx w h hh)
    have hrow := rawField_row hr
    obtain ⟨x, hx⟩ := List.exists_mem_of_ne_nil _ (linspace_ne_nil xmn xmx hw)
    have hmem : interpAt (sortByX p) x ∈ r := by
      rw [hrow]
      exact List.mem_map.2 ⟨x, hx, rfl⟩
    have hvc : interpAt (sortByX p) x = c := hraw r hr _ hmem
    exact List.mem_flatten.2 ⟨r, hr, hvc ▸ hmem⟩
  have hfmin : (rawField p xmn xmx ymn ymx w h).flatten.min? = some c :=
    ratMin?_iff.2 ⟨hcmem, fun v hv => (hflat v hv).ge⟩
  have hfmax : (rawField p xmn xmx ymn ymx w h).flatten.max? = some c :=
    ratMax?_iff.2 ⟨hcmem, fun v hv => (hflat v hv).le⟩
  refine ⟨?_, hraw⟩
  unfold create_heightmap
  rw [e1, e2, e3, e4]
  show (if (sortByX p).length < 2 then Except.error .tooFewPoints
        else normalizeStep (rawField p xmn xmx ymn ymx w h)) =
    Except.ok (rawField p xmn xmx ymn ymx w h)
  rw [if_neg (by have := (sortByX_perm p).length_eq; omega)]
  unfold normalizeStep
  rw [hfmin, hfmax]
  show Except.ok (if c < c
        then (rawField p xmn xmx ymn ymx w h).map
          (List.map (fun v => (v - c) / (c - c)))
        else rawField p xmn xmx ymn ymx w h) =
    Except.ok (rawField p xmn xmx ymn ymx w h)
  rw [if_neg (lt_irrefl c)]

/-- C9 witness: the flat profile `[(0,7),(3,7)]` at width 2, height 2
yields the un-normalized constant field. -/
theorem c9_witness :
    create_heightmap [(0, 7), (3, 7)] 2 2 =
      .ok (rawField [(0, 7), (3, 7)] 0 3 7 7 2 2) :=
  (c9_flat_profile [(0, 7), (3, 7)] 7 2 2 0 3 7 7
    (by with_unfolding_all rfl) (by with_unfolding_all rfl)
    (by with_unfolding_all rfl) (by with_unfolding_all rfl)
    (by decide) ⟨(0, 7), by simp, (3, 7), by simp, by norm_num⟩
    (by norm_num) (by norm_num)).1

/-- C1 (amended): whenever `create_heightmap` succeeds and the returned
field contains two distinct values, every field value lies in [0, 1] and
the bounds 0 and 1 are both attained exactly. -/
theorem c1_normalization_range (p : Profile) (w h : ℕ) (F : List (List ℚ))
    (r₁ r₂ : List ℚ) (a b : ℚ) (hok : create_heightmap p w h = .ok F)
    (hr₁ : r₁ ∈ F) (ha : a ∈ r₁) (hr₂ : r₂ ∈ F) (hb : b ∈ r₂)
    (hab : a ≠ b) : valuesIn01AndAttains F := by
  obtain ⟨xmn, xmx, ymn, ymx, hmn, hmx, e1, e2, e3, e4, hlen, emn, emx, hF⟩ :=
    create_heightmap_ok hok
  rw [ratMin?_iff] at emn
  rw [ratMax?_iff] at emx
  by_cases hlt : hmn < hmx
  · rw [if_pos hlt] at hF
    subst hF
    have hd : (0 : ℚ) < hmx - hmn := sub_pos.2 hlt
    refine ⟨?_, ?_, ?_⟩
    · intro r hr v hv
      rcases List.mem_map.1 hr with ⟨r₀, hr₀, rfl⟩
      rcases List.mem_map.1 hv with ⟨v₀, hv₀, rfl⟩
      have hvm : v₀ ∈ (rawField p xmn xmx ymn ymx w h).flatten :=
        List.mem_flatten.2 ⟨r₀, hr₀, hv₀⟩
      exact ⟨div_nonneg (sub_nonneg.2 (emn.2 v₀ hvm)) hd.le,
        (div_le_one hd).2 (by linarith [emx.2 v₀ hvm])⟩
    · rcases List.mem_flatten.1 emn.1 with ⟨r₀, hr₀, hm⟩
      exact ⟨r₀.map _, List.mem_map.2 ⟨r₀, hr₀, rfl⟩,
        List.mem_map.2 ⟨hmn, hm, by simp⟩⟩
    · rcases List.mem_flatten.1 emx.1 with ⟨r₀, hr₀, hm⟩
      exact ⟨r₀.map _, List.mem_map.2 ⟨r₀, hr₀, rfl⟩,
        List.mem_map.2 ⟨hmx, hm, div_self hd.ne'⟩⟩
  · rw [if_neg hlt] at hF
    subst hF
    have haf : a ∈ (rawField p xmn xmx ymn ymx w h).flatten :=
      List.mem_flatten.2 ⟨r₁, hr₁, ha⟩
    have hbf : b ∈ (rawField p xmn xmx ymn ymx w h).flatten :=
      List.mem_flatten.2 ⟨r₂, hr₂, hb⟩
    refine absurd ?_ hab
    have h1 := emn.2 a haf
    have h2 := emx.2 a haf
    have h3 := emn.2 b hbf
    have h4 := emx.2 b hbf
    have h5 := not_lt.1 hlt
    linarith

/-- C1 witness: the field `[[0,1,0]]` produced from `[(0,0),(10,5),(20,0)]`
at width 3, height 1 is normalized into [0,1] with 0 and 1 attained. -/
theorem c1_witness : valuesIn01AndAttains [[0, 1, 0]] :=
  c1_normalization_range [(0, 0), (10, 5), (20, 0)] 3 1 [[0, 1, 0]]
    [0, 1, 0] [0, 1, 0] 0 1 (by with_unfolding_all rfl)
    (by simp) (by simp) (by simp) (by simp) (by norm_num)

theorem interpGo_knot : ∀ (rest : List (ℚ × ℚ)) (p k : ℚ × ℚ),
    (p :: rest).Pairwise (fun a b : ℚ × ℚ => a.1 < b.1) → k ∈ p :: rest →
    p.1 ≤ k.1 → interpGo p rest k.1 = k.2
  | [], p, k, _, hk, _ => by
    rcases List.mem_cons.1 hk with rfl | h
    · rfl
    · simp at h
  | q :: rest, p, k, hpw, hk, hle => by
    show (if q.1 ≤ k.1 then interpGo q rest k.1
          else if k.1 = p.1 then p.2
          else p.2 + (q.2 - p.2) * (k.1 - p.1) / (q.1 - p.1)) = k.2
    have hpq : p.1 < q.1 := (List.pairwise_cons.1 hpw).1 q (by simp)
    by_cases hq : q.1 ≤ k.1
    · rw [if_pos hq]
      refine interpGo_knot rest q k (List.pairwise_cons.1 hpw).2 ?_ hq
      rcases List.mem_cons.1 hk with rfl | hk'
      · exact absurd hq (not_le.2 hpq)
      · exact hk'
    · rw [if_neg hq]
      rcases List.mem_cons.1 hk with rfl | hk'
      · rw [if_pos rfl]
      · exfalso
        rcases List.mem_cons.1 hk' with rfl | hk''
        · exact hq le_rfl
        · exact hq
            ((List.pairwise_cons.1 (List.pairwise_cons.1 hpw).2).1 k hk'').le

theorem interpAt_knot {ps : List (ℚ × ℚ)} {k : ℚ × ℚ}
    (hs : ps.Pairwise (fun a b : ℚ × ℚ => a.1 < b.1)) (hk : k ∈ ps) :
    interpAt ps k.1 = k.2 := by
  rcases ps with _ | ⟨p, rest⟩
  · simp at hk
  · show (if k.1 < p.1 then p.2 else interpGo p rest k.1) = k.2
    rcases List.mem_cons.1 hk with rfl | hk'
    · rw [if_neg (lt_irrefl _)]
      exact interpGo_knot rest k k hs (by simp) le_rfl
    · have hpk : p.1 < k.1 := (List.pairwise_cons.1 hs).1 k hk'
      rw [if_neg (not_lt.2 hpk.le)]
      exact interpGo_knot rest p k hs (List.mem_cons_of_mem p hk') hpk.le

/-- C8 counterexample: the profile `[(0,0),(0,5),(1,1)]` has two distinct
x values (0 and 1, so it satisfies the claim's hypothesis), its knot
(0,0) coincides with x-sample index 0, yet the field value in that column
is 1 — the normalized value of the OTHER knot (0,5) sharing x = 0 — and
not the normalized value (0 − h_min)/(h_max − h_min) = (0 − 1)/(5 − 1) of
the knot's own y. -/
theorem c8_counterexample :
    ((0 : ℚ), (0 : ℚ)) ∈ ([(0, 0), (0, 5), (1, 1)] : Profile) ∧
      (linspace 0 1 2)[0]? = some ((0 : ℚ), (0 : ℚ)).1 ∧
      (rawField [(0, 0), (0, 5), (1, 1)] 0 1 0 5 2 1).flatten.min? =
        some 1 ∧
      (rawField [(0, 0), (0, 5), (1, 1)] 0 1 0 5 2 1).flatten.max? =
        some 5 ∧
      create_heightmap [(0, 0), (0, 5), (1, 1)] 2 1 = .ok [[1, 0]] ∧
      ([1, 0] : List ℚ)[0]? = some 1 ∧
      (1 : ℚ) ≠ ((0 : ℚ) - 1) / (5 - 1) := by
  refine ⟨by simp, by with_unfolding_all rfl, by with_unfolding_all rfl,
    by with_unfolding_all rfl, by with_unfolding_all rfl, rfl, by norm_num⟩

/-- C8 (amended): for a profile whose x values are pairwise distinct,
whenever a knot's x-coordinate equals the j-th x-sample, every row of the
returned field holds in column j the normalized value of that knot's y:
`(y − h_min) / (h_max − h_min)` when normalization applies
(h_max > h_min), and `y` itself otherwise. -/
theorem c8_knot_value (p : Profile) (w h : ℕ) (F : List (List ℚ))
    (k : ℚ × ℚ) (j : ℕ) (xmn xmx ymn ymx hmn hmx : ℚ)
    (hnd : (p.map Prod.fst).Nodup) (hk : k ∈ p)
    (e1 : (p.map Prod.fst).min? = some xmn)
    (e2 : (p.map Prod.fst).max? = some xmx)
    (e3 : (p.map Prod.snd).min? = some ymn)
    (e4 : (p.map Prod.snd).max? = some ymx)
    (emn : (rawField p xmn xmx ymn ymx w h).flatten.min? = some hmn)
    (emx : (rawField p xmn xmx ymn ymx w h).flatten.max? = some hmx)
    (hok : create_heightmap p w h = .ok F)
    (hj : (linspace xmn xmx w)[j]? = some k.1) :
    ∀ r ∈ F, r[j]? =
      some (if hmn < hmx then (k.2 - hmn) / (hmx - hmn) else k.2) := by
  obtain ⟨xmn', xmx', ymn', ymx', hmn', hmx', e1', e2', e3', e4', hlen,
    emn', emx', hF⟩ := create_heightmap_ok hok
  cases Option.some.inj (e1'.symm.trans e1)
  cases Option.some.inj (e2'.symm.trans e2)
  cases Option.some.inj (e3'.symm.trans e3)
  cases Option.some.inj (e4'.symm.trans e4)
  cases Option.some.inj (emn'.symm.trans emn)
  cases Option.some.inj (emx'.symm.trans emx)
  intro r hr
  have hknot : interpAt (sortByX p) k.1 = k.2 :=
    interpAt_knot (sortByX_strict hnd) ((sortByX_perm p).mem_iff.2 hk)
  by_cases hlt : hmn < hmx
  · rw [if_pos hlt] at hF ⊢
    subst hF
    rcases List.mem_map.1 hr with ⟨r₀, hr₀, rfl⟩
    rw [rawField_row hr₀, List.getElem?_map, List.getElem?_map, hj]
    simp [hknot]
  · rw [if_neg hlt] at hF ⊢
    subst hF
    rw [rawField_row hr, List.getElem?_map, hj]
    simp [hknot]

/-- C8 witness: on `[(0,0),(10,5),(20,0)]` at width 3, the knot (10,5)
coincides with sample 1 and the field column holds the normalized 1. -/
theorem c8_witness : ([0, 1, 0] : List ℚ)[1]? = some 1 := by
  have hval := c8_knot_value [(0, 0), (10, 5), (20, 0)] 3 1 [[0, 1, 0]]
    (10, 5) 1 0 20 0 5 0 5 (by with_unfolding_all decide) (by simp)
    (by with_unfolding_all rfl) (by with_unfolding_all rfl)
    (by with_unfolding_all rfl) (by with_unfolding_all rfl)
    (by with_unfolding_all rfl) (by with_unfolding_all rfl)
    (by with_unfolding_all rfl) (by with_unfolding_all rfl)
    [0, 1, 0] (by simp)
  simpa using hval

end Heightmap
